import Mathlib

/-!
Verification of the SSH-tunneled remote transport of the dolt repository.

We shallowly embed the relevant Go code as Lean functions:

* `go/libraries/doltcore/dbfactory/ssh.go`: URL parsing in `CreateDB`,
  `buildTransferCommand`, `filterSSHNoise`, `sshRemoteError`,
  `sshConnection.Close` / `sshChunkStore.Close`, `PrepareDB`.
* the transfer command file (`TransferCmd.Exec`, `transferFileHandler`).

Go strings are embedded as `List Char` (`GoStr`); byte payloads as
`List Nat`.  Each Go library helper (`strings.TrimSpace`, `strings.Split`,
`strings.Fields`, `strconv.Atoi`, `strconv.ParseUint`,
`base64.RawURLEncoding.DecodeString`, ...) is embedded with its documented
semantics.
-/

/-- Go strings, embedded as lists of characters. -/
abbrev GoStr := List Char

/-- Convert a Lean string literal into a `GoStr`. -/
def goStr (s : String) : GoStr := s.toList

/-- `unicode.IsSpace` from Go's standard library: the white-space code
points recognized by `strings.TrimSpace` and `strings.Fields`. -/
def isGoSpace (c : Char) : Bool :=
  c = ' ' || c = '\t' || c = '\n' || (c = Char.ofNat 0x0B) || (c = Char.ofNat 0x0C) ||
  c = '\r' || c = Char.ofNat 0x85 || c = Char.ofNat 0xA0 ||
  c = Char.ofNat 0x1680 ||
  (Char.ofNat 0x2000 ≤ c && c ≤ Char.ofNat 0x200A) ||
  c = Char.ofNat 0x2028 || c = Char.ofNat 0x2029 || c = Char.ofNat 0x202F ||
  c = Char.ofNat 0x205F || c = Char.ofNat 0x3000

/-- Go `strings.TrimSpace`: drop white space from both ends. -/
def goTrimSpace (l : GoStr) : GoStr :=
  ((l.dropWhile isGoSpace).reverse.dropWhile isGoSpace).reverse

/-- Go `strings.Split(s, "\n")`: split on every newline; always returns at
least one piece. -/
def splitNL : GoStr → List GoStr
  | [] => [[]]
  | c :: rest =>
    if c = '\n' then [] :: splitNL rest
    else
      match splitNL rest with
      | [] => [[c]]
      | h :: t => (c :: h) :: t

/-- Go `strings.Join(lines, "\n")`. -/
def joinNL : List GoStr → GoStr
  | [] => []
  | [l] => l
  | l :: ls => l ++ '\n' :: joinNL ls

/-- Go `strings.HasPrefix(s, pre)`. -/
def goHasPre (pre s : GoStr) : Bool := pre.isPrefixOf s

/-- Go `strings.Contains(s, sub)`: `sub` occurs as a contiguous substring
of `s`. -/
def goContains : GoStr → GoStr → Bool
  | [], sub => sub.isEmpty
  | c :: rest, sub => sub.isPrefixOf (c :: rest) || goContains rest sub

/-- The SSH noise marker filtered by the client:
`"Warning: Permanently added"`. -/
def sshWarningPre : GoStr := goStr "Warning: Permanently added"

/-- The line-collection loop inside `filterSSHNoise` (ssh.go:207-217):
trim each line, skip the blank ones and the known-benign SSH warnings,
keep the trimmed rest in order. -/
def collectLines : List GoStr → List GoStr
  | [] => []
  | line :: rest =>
    let trimmed := goTrimSpace line
    if trimmed = [] then collectLines rest
    else if goHasPre sshWarningPre trimmed then collectLines rest
    else trimmed :: collectLines rest

/-- `filterSSHNoise` (ssh.go:206-219): remove common SSH informational
messages from stderr output. -/
def filterSSHNoise (s : GoStr) : GoStr :=
  joinNL (collectLines (splitNL s))

/-- `sshRemoteError` (ssh.go:192-202), with the stderr buffer contents,
path, context message and low-level error as inputs.  The Go function
blocks on `stderrDone` first; the resulting error message is embedded as a
`GoStr`. -/
def sshRemoteError (stderr path msg err : GoStr) : GoStr :=
  let errMsg := filterSSHNoise stderr
  if errMsg ≠ [] then
    if goContains errMsg (goStr "no such file or directory") ||
       goContains errMsg (goStr "failed to load database") then
      goStr "repository not found at " ++ path
    else
      msg ++ goStr ": remote: " ++ errMsg
  else
    msg ++ goStr ": " ++ err

/-- `SSHRemoteFactory.PrepareDB` (ssh.go:47-49): unconditionally returns
the error `"ssh scheme does not support PrepareDB"`, ignoring all of its
arguments. -/
def prepareDB {α β γ δ : Type} (_ctx : α) (_nbf : β) (_urlObj : γ)
    (_params : δ) : Except GoStr Unit :=
  .error (goStr "ssh scheme does not support PrepareDB")

/-- Go `strings.LastIndex(s, string(c))` for a single character: index of
the last occurrence of `c` in `s`, `none` when absent (Go returns `-1`). -/
def goLastIndexChar (c : Char) : GoStr → Option Nat
  | [] => none
  | x :: rest =>
    match goLastIndexChar c rest with
    | some i => some (i + 1)
    | none => if x = c then some 0 else none

/-- Go `strings.TrimSuffix(s, suf)`. -/
def goTrimSuffix (l suf : GoStr) : GoStr :=
  if suf.isSuffixOf l then l.take (l.length - suf.length) else l

/-- Worker for `goFields`: `acc` holds the current field, reversed. -/
def goFieldsAux : GoStr → GoStr → List GoStr
  | [], acc => if acc = [] then [] else [acc.reverse]
  | c :: rest, acc =>
    if isGoSpace c then
      if acc = [] then goFieldsAux rest []
      else acc.reverse :: goFieldsAux rest []
    else goFieldsAux rest (c :: acc)

/-- Go `strings.Fields`: split around runs of white space, dropping empty
fields. -/
def goFields (l : GoStr) : List GoStr := goFieldsAux l []

/-- The inputs `CreateDB` reads off the parsed `*url.URL` (ssh.go:55-65):
`Hostname()`, `Port()`, `Path`, and the optional user-info field
(`urlObj.User`, `nil` when absent). -/
structure URLObj where
  hostname : GoStr
  port : GoStr
  path : GoStr
  userinfo : Option GoStr

/-- The values `CreateDB` hands to `buildTransferCommand`. -/
structure SSHTarget where
  user : GoStr
  host : GoStr
  port : GoStr
  path : GoStr
deriving DecidableEq

/-- URL-parsing part of `CreateDB` (ssh.go:54-71): strip a trailing
`/.dolt` from the path, take the user from the user-info field, then, if
the host contains `@`, split the host at the last `@` into user and host
(overwriting any user-info user). -/
def parseSSHURL (u : URLObj) : SSHTarget :=
  let host := u.hostname
  let port := u.port
  let path := goTrimSuffix u.path (goStr "/.dolt")
  let user :=
    match u.userinfo with
    | some ui => ui
    | none => []
  match goLastIndexChar '@' host with
  | some atIdx => ⟨host.take atIdx, host.drop (atIdx + 1), port, path⟩
  | none => ⟨user, host, port, path⟩

/-- `buildTransferCommand` (ssh.go:225-252).  The two environment
variables `DOLT_SSH` and `DOLT_SSH_EXEC_PATH` are passed explicitly as
`os.Getenv` results (the empty string when unset).  The result is the
executable plus its argument list, or the error for an all-whitespace
`DOLT_SSH`. -/
def buildTransferCommand (doltSSHEnv doltSSHExecPathEnv : GoStr)
    (host port path user : GoStr) : Except GoStr (GoStr × List GoStr) :=
  let sshCommand := if doltSSHEnv = [] then goStr "ssh" else doltSSHEnv
  let remoteDolt :=
    if doltSSHExecPathEnv = [] then goStr "dolt" else doltSSHExecPathEnv
  let sshTarget := if user = [] then host else user ++ '@' :: host
  let remoteCmd :=
    remoteDolt ++ goStr " --data-dir " ++ path ++ goStr " transfer"
  match goFields sshCommand with
  | [] => .error (goStr "invalid DOLT_SSH command: empty")
  | exe :: restArgs =>
    let args :=
      if port = [] then restArgs ++ [sshTarget, remoteCmd]
      else restArgs ++ [goStr "-p", port, sshTarget, remoteCmd]
    .ok (exe, args)

/-- Numeric value of a digit string. -/
def digitsVal (l : GoStr) : Nat :=
  l.foldl (fun a c => a * 10 + (c.toNat - 48)) 0

/-- Parse a non-empty all-digit string (the digit part shared by Go's
`strconv.ParseInt` and `strconv.ParseUint` in base 10, where underscores
are not permitted). -/
def goParseDigits (l : GoStr) : Option Nat :=
  if l = [] then none
  else if l.all Char.isDigit then some (digitsVal l) else none

/-- Go `strconv.Atoi` (= `ParseInt(s, 10, 0)` with 64-bit `int`): an
optional sign followed by digits, rejecting values outside
`[-2^63, 2^63-1]`. -/
def goAtoi (s : GoStr) : Option Int :=
  match s with
  | [] => none
  | c :: rest =>
    if c = '+' then
      (goParseDigits rest).bind fun n =>
        if n ≤ 2 ^ 63 - 1 then some (n : Int) else none
    else if c = '-' then
      (goParseDigits rest).bind fun n =>
        if n ≤ 2 ^ 63 then some (-(n : Int)) else none
    else
      (goParseDigits (c :: rest)).bind fun n =>
        if n ≤ 2 ^ 63 - 1 then some (n : Int) else none

/-- Go `strconv.ParseUint(s, 10, 64)`: digits only (no sign), value below
`2^64`. -/
def goParseUint64 (s : GoStr) : Option Nat :=
  (goParseDigits s).bind fun n => if n < 2 ^ 64 then some n else none

/-- Value of one character of the base64url alphabet
(`A-Z a-z 0-9 - _`), `none` for characters outside it (including `=`,
since `RawURLEncoding` uses no padding). -/
def b64Val (c : Char) : Option Nat :=
  if 'A' ≤ c ∧ c ≤ 'Z' then some (c.toNat - 65)
  else if 'a' ≤ c ∧ c ≤ 'z' then some (c.toNat - 71)
  else if '0' ≤ c ∧ c ≤ '9' then some (c.toNat + 4)
  else if c = '-' then some 62
  else if c = '_' then some 63
  else none

/-- Reassemble decoded 6-bit groups into bytes, 4 groups to 3 bytes; a
trailing group of 2 or 3 characters yields 1 or 2 bytes, a trailing single
character is a corrupt-input error (Go's non-strict decoder ignores
non-zero trailing bits). -/
def b64Bytes : List Nat → Option (List Nat)
  | [] => some []
  | [_] => none
  | [a, b] => some [a * 4 + b / 16]
  | [a, b, c] => some [a * 4 + b / 16, b % 16 * 16 + c / 4]
  | a :: b :: c :: d :: rest =>
    (b64Bytes rest).map fun bs =>
      (a * 4 + b / 16) :: (b % 16 * 16 + c / 4) :: (c % 4 * 64 + d) :: bs

/-- Go `base64.RawURLEncoding.DecodeString`: skip `\r`/`\n`, map every
other character through the base64url alphabet, reassemble into bytes. -/
def goB64RawURLDecode (s : GoStr) : Option (List Nat) :=
  ((s.filter fun c => !(c == '\r' || c == '\n')).mapM b64Val).bind b64Bytes

/-- URL query values, as key/value pairs in order. -/
abbrev Query := List (GoStr × GoStr)

/-- Go `url.Values.Get(key)`: first value associated with the key, the
empty string when the key is absent. -/
def goGet (q : Query) (key : GoStr) : GoStr :=
  match q.find? (fun p => p.1 == key) with
  | some p => p.2
  | none => []

/-- One call to `RemoteSrvStore.WriteTableFile` (part_004:365-367),
recording every argument the handler passes: the file name, the split
offset, the chunk count, the decoded content hash, and the request body
with its declared content length (the `func()` closure returns
`(r.Body, contentLength, nil)`). -/
structure WriteCall where
  filename : GoStr
  splitOffset : Nat
  numChunks : Int
  contentHash : List Nat
  body : List Nat
  contentLength : Nat
deriving DecidableEq

/-- An HTTP response body at this layer: empty, an error text, or file
data. -/
inductive RBody where
  | empty
  | text (s : GoStr)
  | data (d : List Nat)
deriving DecidableEq

/-- Observable outcome of one request to `transferFileHandler`: HTTP
status, response body, files successfully opened, and the
`WriteTableFile` calls made. -/
structure HResp where
  status : Nat
  body : RBody
  opened : List GoStr
  calls : List WriteCall
deriving DecidableEq

/-- `transferFileHandler.handleUpload` (part_004:306-375).  `wtf` is the
chunk store's `WriteTableFile`, returning `some errText` on failure and
`none` on success; the handler reaches it through `singletonDBCache.Get`,
which never fails (part_004:212-214). -/
def handleUpload (wtf : WriteCall → Option GoStr) (path : GoStr)
    (q : Query) (reqBody : List Nat) : HResp :=
  match goLastIndexChar '/' path with
  | none => ⟨400, .text (goStr "Bad Request"), [], []⟩
  | some i =>
    let filename := path.drop (i + 1)
    let numChunksStr := goGet q (goStr "num_chunks")
    if numChunksStr = [] then
      ⟨400, .text (goStr "Bad Request: num_chunks required"), [], []⟩
    else
      match goAtoi numChunksStr with
      | none => ⟨400, .text (goStr "Bad Request: invalid num_chunks"), [], []⟩
      | some numChunks =>
        let contentLengthStr := goGet q (goStr "content_length")
        if contentLengthStr = [] then
          ⟨400, .text (goStr "Bad Request: content_length required"), [], []⟩
        else
          match goParseUint64 contentLengthStr with
          | none =>
            ⟨400, .text (goStr "Bad Request: invalid content_length"), [], []⟩
          | some contentLength =>
            let contentHashStr := goGet q (goStr "content_hash")
            if contentHashStr = [] then
              ⟨400, .text (goStr "Bad Request: content_hash required"), [], []⟩
            else
              match goB64RawURLDecode contentHashStr with
              | none =>
                ⟨400, .text (goStr "Bad Request: invalid content_hash"), [], []⟩
              | some contentHash =>
                let splitOffsetStr := goGet q (goStr "split_offset")
                match
                  (if splitOffsetStr = [] then some 0
                   else goParseUint64 splitOffsetStr : Option Nat) with
                | none =>
                  ⟨400, .text (goStr "Bad Request: invalid split_offset"), [], []⟩
                | some splitOffset =>
                  let call : WriteCall :=
                    ⟨filename, splitOffset, numChunks, contentHash, reqBody,
                      contentLength⟩
                  match wtf call with
                  | some errText => ⟨500, .text errText, [], [call]⟩
                  | none => ⟨200, .empty, [], [call]⟩

/-- `transferFileHandler.handleGet` (part_004:286-304).  `fs` is
`Filesys.OpenForRead`; the opened reader is always an `io.ReadSeeker`
(the source notes it is an `*os.File`), so the 200 path serves the
content. -/
def handleGet (fs : GoStr → Option (List Nat)) (path : GoStr) : HResp :=
  match fs path with
  | none => ⟨404, .text (goStr "Not Found"), [], []⟩
  | some content => ⟨200, .data content, [path], []⟩

/-- `transferFileHandler.ServeHTTP` (part_004:273-284): trim leading `/`
from the URL path, then dispatch on the method string. -/
def serveHTTP (fs : GoStr → Option (List Nat))
    (wtf : WriteCall → Option GoStr) (method urlPath : GoStr) (q : Query)
    (reqBody : List Nat) : HResp :=
  let path := urlPath.dropWhile (fun c => c == '/')
  if method = goStr "GET" then handleGet fs path
  else if method = goStr "POST" ∨ method = goStr "PUT" then
    handleUpload wtf path q reqBody
  else ⟨405, .text (goStr "Method Not Allowed"), [], []⟩

/-- Modelled from the spec: `HandleVErrAndExitCode` is not among the
provided sources; per the spec ("print a diagnostic to stderr and exit
nonzero", "return 1 with the error printed to stderr otherwise") it
prints the verbose error text to stderr and returns exit code 1. -/
def handleVErrAndExitCode (msg : GoStr) : Nat × List GoStr := (1, [msg])

/-- Modelled from the spec: the verbose error built by
`errhand.BuildDError(msg).AddCause(err)` (not among the provided sources)
carries the message text together with the cause. -/
def dErrorText (msg : GoStr) (cause : Option GoStr) : GoStr :=
  match cause with
  | some c => msg ++ goStr ": " ++ c
  | none => msg

/-- The first event `TransferCmd.Exec`'s final `select` observes
(part_004:182-191): a formatted gRPC server error, a formatted HTTP
server error (only sent for errors other than `http.ErrServerClosed`,
part_004:176), the SMUX session's close channel, or outer context
cancellation. -/
inductive TransferEvent where
  | grpcServerErr (msg : GoStr)
  | httpServerErr (msg : GoStr)
  | sessionClose
  | ctxDone

/-- `TransferCmd.Exec` (part_004:100-192), as a function of: whether
`dEnv.DoltDB` is non-nil, `dEnv.DBLoadError`, whether `smux.Server`
succeeds, whether the chunk store implements `RemoteSrvStore`, and the
event the final `select` observes.  The result is the exit code together
with the lines written to stderr. -/
def transferExec (dbPresent : Bool) (dbLoadErr : Option GoStr)
    (smuxOk : Bool) (storeOk : Bool) (ev : TransferEvent) :
    Nat × List GoStr :=
  if dbPresent = false ∨ dbLoadErr ≠ none then
    match dbLoadErr with
    | some cause =>
      handleVErrAndExitCode (dErrorText (goStr "failed to load database") (some cause))
    | none =>
      handleVErrAndExitCode (dErrorText (goStr "failed to load database") none)
  else if smuxOk = false then
    handleVErrAndExitCode (dErrorText (goStr "failed to create SMUX session") none)
  else if storeOk = false then
    handleVErrAndExitCode
      (dErrorText (goStr "chunk store does not implement RemoteSrvStore") none)
  else
    match ev with
    | .grpcServerErr m => (1, [goStr "gRPC server error: " ++ m])
    | .httpServerErr m => (1, [goStr "HTTP server error: " ++ m])
    | .sessionClose => (0, [])
    | .ctxDone => (0, [])

/-- One teardown step observable during `sshChunkStore.Close` /
`sshConnection.Close`. -/
inductive TStep where
  | unregisterTransport (host : GoStr)
  | cancelCtx (cause : GoStr)
  | closeSession
  | closeGrpc
  | closeStdin
  | killProc
  | waitProc
  | closeDoltStore
deriving DecidableEq

/-- Which of `sshConnection`'s nillable fields are populated.  The
connection built by `CreateDB` (ssh.go:173-179) populates all of them. -/
structure SSHConnFields where
  hasCancel : Bool
  hasSession : Bool
  hasGrpc : Bool
  hasStdin : Bool
  hasProc : Bool

/-- The step sequence performed by `sshConnection.Close` (ssh.go:268-288):
unregister the `transfer.local` transport, then for each non-nil field in
order: cancel the context with cause "connection closed", close the SMUX
session, close the gRPC connection, close stdin, kill the subprocess and
wait for it. -/
def sshConnectionCloseTrace (c : SSHConnFields) : List TStep :=
  .unregisterTransport (goStr "transfer.local") ::
    ((if c.hasCancel then [.cancelCtx (goStr "connection closed")] else []) ++
     (if c.hasSession then [.closeSession] else []) ++
     (if c.hasGrpc then [.closeGrpc] else []) ++
     (if c.hasStdin then [.closeStdin] else []) ++
     (if c.hasProc then [.killProc, .waitProc] else []))

/-- The step sequence performed by `sshChunkStore.Close` (ssh.go:299-306):
close the wrapped `DoltChunkStore`, then run `sshConnection.Close`. -/
def sshChunkStoreCloseTrace (c : SSHConnFields) : List TStep :=
  .closeDoltStore :: sshConnectionCloseTrace c

/-- The `sshConnection` built by `CreateDB`: every field populated. -/
def fullSSHConn : SSHConnFields := ⟨true, true, true, true, true⟩

/-- `hasAdjPair a b l`: the list `l` contains `a` and `b` as adjacent
elements, in that order. -/
def hasAdjPair (a b : GoStr) : List GoStr → Bool
  | [] => false
  | [_] => false
  | x :: y :: rest => (x == a && y == b) || hasAdjPair a b (y :: rest)

/-- C10: for every context, binary format, URL and parameter map,
`PrepareDB` returns the fixed "ssh scheme does not support PrepareDB"
error and nothing else. -/
theorem prepareDB_always_errors {α β γ δ : Type} (ctx : α) (nbf : β)
    (urlObj : γ) (params : δ) :
    prepareDB ctx nbf urlObj params =
      .error (goStr "ssh scheme does not support PrepareDB") := by
  rfl

/-- C8: every request to the file-transfer handler whose method is not
GET, POST or PUT is answered 405 Method Not Allowed, with no file opened
and no `WriteTableFile` call. -/
theorem serveHTTP_unknown_method (fs : GoStr → Option (List Nat))
    (wtf : WriteCall → Option GoStr) (method urlPath : GoStr) (q : Query)
    (reqBody : List Nat)
    (hg : method ≠ goStr "GET") (hp : method ≠ goStr "POST")
    (hu : method ≠ goStr "PUT") :
    serveHTTP fs wtf method urlPath q reqBody =
      ⟨405, .text (goStr "Method Not Allowed"), [], []⟩ := by
  simp [serveHTTP, hg, hp, hu]

/-- Witness for C8: a DELETE request is answered 405 with no effects. -/
theorem serveHTTP_unknown_method_witness :
    serveHTTP (fun _ => none) (fun _ => none) (goStr "DELETE")
        (goStr "/a/b") [] [] =
      ⟨405, .text (goStr "Method Not Allowed"), [], []⟩ :=
  serveHTTP_unknown_method _ _ _ _ _ _ (by decide) (by decide) (by decide)

/-- C7: closing the wrapped chunk store closes the DoltChunkStore and then
performs connection teardown in exactly the order: unregister the
`transfer.local` transport, cancel the context with cause
"connection closed", close the SMUX session, close the gRPC connection,
close stdin, kill the subprocess, wait for it; in particular the session
is closed before the kill, and the transport is unregistered before the
session is closed. -/
theorem sshChunkStoreClose_order :
    sshChunkStoreCloseTrace fullSSHConn =
      [.closeDoltStore, .unregisterTransport (goStr "transfer.local"),
        .cancelCtx (goStr "connection closed"), .closeSession, .closeGrpc,
        .closeStdin, .killProc, .waitProc] ∧
    (sshConnectionCloseTrace fullSSHConn).indexOf TStep.closeSession <
      (sshConnectionCloseTrace fullSSHConn).indexOf TStep.killProc ∧
    (sshConnectionCloseTrace fullSSHConn).indexOf
        (TStep.unregisterTransport (goStr "transfer.local")) <
      (sshConnectionCloseTrace fullSSHConn).indexOf TStep.closeSession := by
  decide

/-- C4: `TransferCmd.Exec` returns 0 when the session close channel fires
or the outer context is cancelled, and 1 with a diagnostic on stderr when
a gRPC or HTTP server error arrives or when the database failed to
load. -/
theorem transferExec_exit_codes (m cause : GoStr) (smuxOk storeOk : Bool)
    (ev : TransferEvent) :
    transferExec true none true true .sessionClose = (0, []) ∧
    transferExec true none true true .ctxDone = (0, []) ∧
    transferExec true none true true (.grpcServerErr m) =
      (1, [goStr "gRPC server error: " ++ m]) ∧
    transferExec true none true true (.httpServerErr m) =
      (1, [goStr "HTTP server error: " ++ m]) ∧
    transferExec false none smuxOk storeOk ev =
      (1, [goStr "failed to load database"]) ∧
    transferExec true (some cause) smuxOk storeOk ev =
      (1, [goStr "failed to load database" ++ goStr ": " ++ cause]) := by
  refine ⟨rfl, rfl, rfl, rfl, ?_, ?_⟩ <;>
    simp [transferExec, handleVErrAndExitCode, dErrorText]

/-- Counterexample to C1: with URL-form user-info "alice" and the host
field "bob@h", the user handed to `buildTransferCommand` is "bob" (the
host-field prefix), not the user-info "alice". -/
theorem parseSSHURL_user_info_loses :
    (parseSSHURL ⟨goStr "bob@h", goStr "22", goStr "/r",
        some (goStr "alice")⟩).user = goStr "bob" ∧
    (goStr "bob" : GoStr) ≠ goStr "alice" := by decide

/-- C1 (amended): `CreateDB` splits the host field on the last `@` into
user and host, and when an `@`-prefix is present in the host field that
prefix is the user passed on, overriding any URL-form user-info. -/
theorem parseSSHURL_at_split (u : URLObj) (i : Nat)
    (h : goLastIndexChar '@' u.hostname = some i) :
    parseSSHURL u =
      ⟨u.hostname.take i, u.hostname.drop (i + 1), u.port,
        goTrimSuffix u.path (goStr "/.dolt")⟩ := by
  simp [parseSSHURL, h]

/-- Witness for the amended C1, at host field "bob@h" with user-info
"alice". -/
theorem parseSSHURL_at_split_witness :
    parseSSHURL ⟨goStr "bob@h", goStr "22", goStr "/r/.dolt",
        some (goStr "alice")⟩ =
      ⟨(goStr "bob@h").take 3, (goStr "bob@h").drop (3 + 1), goStr "22",
        goTrimSuffix (goStr "/r/.dolt") (goStr "/.dolt")⟩ :=
  parseSSHURL_at_split
    ⟨goStr "bob@h", goStr "22", goStr "/r/.dolt", some (goStr "alice")⟩ 3
    (by decide)

/-- C5: `buildTransferCommand` produces the SSH executable (DOLT_SSH split
on whitespace, default "ssh") whose final, single argument is the string
`<remote-dolt> --data-dir <path> transfer`, with `<remote-dolt>` the value
of DOLT_SSH_EXEC_PATH when set and "dolt" otherwise; and the path
`CreateDB` hands over is the URL path with a trailing `/.dolt` removed. -/
theorem buildTransferCommand_remote_string
    (sshEnv doltEnv host port path user exe0 : GoStr)
    (rest : List GoStr) (u : URLObj)
    (hF : goFields (if sshEnv = [] then goStr "ssh" else sshEnv) =
      exe0 :: rest) :
    buildTransferCommand sshEnv doltEnv host port path user =
      .ok (exe0,
        rest ++ (if port = [] then [] else [goStr "-p", port]) ++
          [if user = [] then host else user ++ '@' :: host,
            (if doltEnv = [] then goStr "dolt" else doltEnv) ++
              goStr " --data-dir " ++ path ++ goStr " transfer"]) ∧
    (rest ++ (if port = [] then [] else [goStr "-p", port]) ++
        [if user = [] then host else user ++ '@' :: host,
          (if doltEnv = [] then goStr "dolt" else doltEnv) ++
            goStr " --data-dir " ++ path ++ goStr " transfer"]).getLast? =
      some ((if doltEnv = [] then goStr "dolt" else doltEnv) ++
        goStr " --data-dir " ++ path ++ goStr " transfer") ∧
    (parseSSHURL u).path = goTrimSuffix u.path (goStr "/.dolt") := by
  refine ⟨?_, ?_, ?_⟩
  · simp only [buildTransferCommand, hF]
    by_cases hp : port = [] <;> simp [hp]
  · rw [show rest ++ (if port = [] then [] else [goStr "-p", port]) ++
        [if user = [] then host else user ++ '@' :: host,
          (if doltEnv = [] then goStr "dolt" else doltEnv) ++
            goStr " --data-dir " ++ path ++ goStr " transfer"] =
        (rest ++ (if port = [] then [] else [goStr "-p", port]) ++
          [if user = [] then host else user ++ '@' :: host]) ++
          [(if doltEnv = [] then goStr "dolt" else doltEnv) ++
            goStr " --data-dir " ++ path ++ goStr " transfer"] by simp]
    exact List.getLast?_concat _
  · cases h : goLastIndexChar '@' u.hostname <;> simp [parseSSHURL, h]

/-- Witness for C5, with DOLT_SSH unset, DOLT_SSH_EXEC_PATH=/c/dolt, host
"h", port "22", path "/r", user "u". -/
theorem buildTransferCommand_remote_string_witness :
    buildTransferCommand [] (goStr "/c/dolt") (goStr "h") (goStr "22")
        (goStr "/r") (goStr "u") =
      .ok (goStr "ssh",
        [] ++ (if (goStr "22" : GoStr) = [] then [] else [goStr "-p", goStr "22"]) ++
          [if (goStr "u" : GoStr) = [] then goStr "h"
            else goStr "u" ++ '@' :: goStr "h",
            (if (goStr "/c/dolt" : GoStr) = [] then goStr "dolt" else goStr "/c/dolt") ++
              goStr " --data-dir " ++ goStr "/r" ++ goStr " transfer"]) ∧
    ([] ++ (if (goStr "22" : GoStr) = [] then [] else [goStr "-p", goStr "22"]) ++
        [if (goStr "u" : GoStr) = [] then goStr "h"
          else goStr "u" ++ '@' :: goStr "h",
          (if (goStr "/c/dolt" : GoStr) = [] then goStr "dolt" else goStr "/c/dolt") ++
            goStr " --data-dir " ++ goStr "/r" ++ goStr " transfer"]).getLast? =
      some ((if (goStr "/c/dolt" : GoStr) = [] then goStr "dolt" else goStr "/c/dolt") ++
        goStr " --data-dir " ++ goStr "/r" ++ goStr " transfer") ∧
    (parseSSHURL ⟨goStr "h", goStr "22", goStr "/r/.dolt", none⟩).path =
      goTrimSuffix (goStr "/r/.dolt") (goStr "/.dolt") :=
  buildTransferCommand_remote_string [] (goStr "/c/dolt") (goStr "h")
    (goStr "22") (goStr "/r") (goStr "u") (goStr "ssh") []
    ⟨goStr "h", goStr "22", goStr "/r/.dolt", none⟩ (by decide)

/-- C6: with the default SSH command, the argument list is `-p <port>`
(exactly when port is non-empty), then `[user@]host`, then the remote
command string last; the adjacent pair "-p", `<port>` occurs in the list
iff port is non-empty. -/
theorem buildTransferCommand_port_pair (doltEnv host port path user : GoStr) :
    buildTransferCommand [] doltEnv host port path user =
      .ok (goStr "ssh",
        (if port = [] then [] else [goStr "-p", port]) ++
          [if user = [] then host else user ++ '@' :: host,
            (if doltEnv = [] then goStr "dolt" else doltEnv) ++
              goStr " --data-dir " ++ path ++ goStr " transfer"]) ∧
    (hasAdjPair (goStr "-p") port
        ((if port = [] then [] else [goStr "-p", port]) ++
          [if user = [] then host else user ++ '@' :: host,
            (if doltEnv = [] then goStr "dolt" else doltEnv) ++
              goStr " --data-dir " ++ path ++ goStr " transfer"]) = true
      ↔ port ≠ []) := by
  constructor
  · have hF : goFields (goStr "ssh") = [goStr "ssh"] := by decide
    by_cases hp : port = [] <;> simp [buildTransferCommand, hF, hp]
  · by_cases hp : port = []
    · subst hp
      simp [hasAdjPair, show (goStr " transfer" : GoStr) ≠ [] from by decide]
    · simp [hasAdjPair, hp]

/-- The collection loop of `filterSSHNoise` equals trimming every line and
keeping the non-blank, non-warning ones. -/
theorem collectLines_eq_filter_map (xs : List GoStr) :
    collectLines xs =
      (xs.map goTrimSpace).filter
        fun t => !t.isEmpty && !goHasPre sshWarningPre t := by
  induction xs with
  | nil => rfl
  | cons x rest ih =>
    simp only [collectLines, List.map_cons, List.filter_cons]
    by_cases h1 : goTrimSpace x = []
    · simp [h1, ih]
    · by_cases h2 : goHasPre sshWarningPre (goTrimSpace x) = true
      · simp [h1, h2, ih]
      · simp [h1, h2, ih]

/-- C3: `sshRemoteError` filters stderr by dropping blank-after-trim lines
and `Warning: Permanently added` lines and trimming the rest; on
non-empty filtered text matching a known signal it returns
`repository not found at <path>`; on other non-empty filtered text it
returns `<context>: remote: <filtered>`; on empty filtered text it wraps
the low-level error in the context message. -/
theorem sshRemoteError_triage (s path msg err : GoStr) :
    filterSSHNoise s =
      joinNL (((splitNL s).map goTrimSpace).filter
        fun t => !t.isEmpty && !goHasPre sshWarningPre t) ∧
    (filterSSHNoise s ≠ [] →
      (goContains (filterSSHNoise s) (goStr "no such file or directory") = true ∨
        goContains (filterSSHNoise s) (goStr "failed to load database") = true) →
      sshRemoteError s path msg err = goStr "repository not found at " ++ path) ∧
    (filterSSHNoise s ≠ [] →
      goContains (filterSSHNoise s) (goStr "no such file or directory") = false →
      goContains (filterSSHNoise s) (goStr "failed to load database") = false →
      sshRemoteError s path msg err = msg ++ goStr ": remote: " ++ filterSSHNoise s) ∧
    (filterSSHNoise s = [] →
      sshRemoteError s path msg err = msg ++ goStr ": " ++ err) := by
  refine ⟨?_, ?_, ?_, ?_⟩
  · simp [filterSSHNoise, collectLines_eq_filter_map]
  · intro hne hc
    have hor : (goContains (filterSSHNoise s) (goStr "no such file or directory") ||
        goContains (filterSSHNoise s) (goStr "failed to load database")) = true := by
      rcases hc with h | h <;> simp [h]
    simp [sshRemoteError, hne, hor]
  · intro hne h1 h2
    simp [sshRemoteError, hne, h1, h2]
  · intro he
    simp [sshRemoteError, he]

/-- Witness for C3: a stderr containing "no such file or directory" maps
to the repository-not-found error. -/
theorem sshRemoteError_triage_witness :
    sshRemoteError (goStr "bash: no such file or directory\n") (goStr "/p")
        (goStr "ctx") (goStr "low") =
      goStr "repository not found at " ++ goStr "/p" :=
  (sshRemoteError_triage (goStr "bash: no such file or directory\n")
      (goStr "/p") (goStr "ctx") (goStr "low")).2.1 (by decide)
    (Or.inl (by decide))

/-- `dropWhile` is idempotent. -/
theorem dropWhile_self (p : Char → Bool) (l : GoStr) :
    (l.dropWhile p).dropWhile p = l.dropWhile p := by
  induction l with
  | nil => rfl
  | cons c rest ih =>
    by_cases hc : p c = true
    · simp [List.dropWhile_cons, hc, ih]
    · simp [List.dropWhile_cons, hc]

/-- The head surviving a `dropWhile` fails the predicate. -/
theorem dropWhile_head_false {p : Char → Bool} {l t : GoStr} {c : Char}
    (h : l.dropWhile p = c :: t) : p c = false := by
  induction l with
  | nil => simp at h
  | cons x xs ih =>
    rw [List.dropWhile_cons] at h
    by_cases hx : p x = true
    · rw [if_pos hx] at h
      exact ih h
    · rw [if_neg hx] at h
      injection h with h1 _
      subst h1
      simp only [Bool.not_eq_true] at hx
      exact hx

/-- `dropWhile` removes an initial segment: the result is a suffix. -/
theorem dropWhile_is_suffix (p : Char → Bool) (l : GoStr) :
    ∃ u, u ++ l.dropWhile p = l := by
  induction l with
  | nil => exact ⟨[], rfl⟩
  | cons x xs ih =>
    by_cases hx : p x = true
    · obtain ⟨u, hu⟩ := ih
      exact ⟨x :: u, by simp [List.dropWhile_cons, hx, hu]⟩
    · exact ⟨[], by simp [List.dropWhile_cons, hx]⟩

/-- A final element failing the predicate survives `dropWhile` and lets it
distribute over the append. -/
theorem dropWhile_append_last {p : Char → Bool} {c : Char}
    (hc : p c = false) (l : GoStr) :
    (l ++ [c]).dropWhile p = l.dropWhile p ++ [c] := by
  induction l with
  | nil => simp [List.dropWhile_cons, hc]
  | cons x xs ih =>
    by_cases hx : p x = true <;> simp [List.dropWhile_cons, hx, ih]

/-- The head of a trimmed string is not white space. -/
theorem goTrimSpace_head_false {l t : GoStr} {c : Char}
    (h : goTrimSpace l = c :: t) : isGoSpace c = false := by
  obtain ⟨u, hu⟩ :=
    dropWhile_is_suffix isGoSpace (l.dropWhile isGoSpace).reverse
  have hA : l.dropWhile isGoSpace = goTrimSpace l ++ u.reverse := by
    unfold goTrimSpace
    calc l.dropWhile isGoSpace
        = ((l.dropWhile isGoSpace).reverse).reverse := by simp
      _ = (u ++ (l.dropWhile isGoSpace).reverse.dropWhile isGoSpace).reverse := by
          rw [hu]
      _ = ((l.dropWhile isGoSpace).reverse.dropWhile isGoSpace).reverse ++
            u.reverse := by simp
  rw [h, List.cons_append] at hA
  exact dropWhile_head_false hA

/-- Go `strings.TrimSpace` is idempotent. -/
theorem goTrimSpace_idem (l : GoStr) :
    goTrimSpace (goTrimSpace l) = goTrimSpace l := by
  have hL : (goTrimSpace l).dropWhile isGoSpace = goTrimSpace l := by
    rcases h : goTrimSpace l with _ | ⟨c, t⟩
    · rfl
    · rw [List.dropWhile_cons, if_neg (by simp [goTrimSpace_head_false h])]
  show (((goTrimSpace l).dropWhile isGoSpace).reverse.dropWhile
      isGoSpace).reverse = goTrimSpace l
  rw [hL]
  unfold goTrimSpace
  rw [List.reverse_reverse, dropWhile_self]

/-- Characters of a trimmed string come from the original string. -/
theorem mem_of_mem_goTrimSpace {x : GoStr} {y : Char}
    (h : y ∈ goTrimSpace x) : y ∈ x := by
  unfold goTrimSpace at h
  rw [List.mem_reverse] at h
  obtain ⟨u, hu⟩ :=
    dropWhile_is_suffix isGoSpace (x.dropWhile isGoSpace).reverse
  have h1 : y ∈ (x.dropWhile isGoSpace).reverse := by
    rw [← hu]
    exact List.mem_append_right _ h
  rw [List.mem_reverse] at h1
  obtain ⟨u2, hu2⟩ := dropWhile_is_suffix isGoSpace x
  rw [← hu2]
  exact List.mem_append_right _ h1

/-- `splitNL` always produces at least one piece. -/
theorem splitNL_ne_nil (s : GoStr) : splitNL s ≠ [] := by
  induction s with
  | nil => simp [splitNL]
  | cons c rest ih =>
    by_cases hc : c = '\n'
    · simp [splitNL, hc]
    · simp only [splitNL, if_neg hc]
      cases h : splitNL rest <;> simp

/-- Pieces produced by `splitNL` contain no newline. -/
theorem mem_splitNL_no_nl {s piece : GoStr}
    (h : piece ∈ splitNL s) : '\n' ∉ piece := by
  induction s generalizing piece with
  | nil =>
    simp only [splitNL, List.mem_singleton] at h
    subst h
    simp
  | cons c rest ih =>
    by_cases hc : c = '\n'
    · rw [show splitNL (c :: rest) = [] :: splitNL rest from by
        simp [splitNL, hc]] at h
      rcases List.mem_cons.mp h with rfl | h'
      · simp
      · exact ih h'
    · simp only [splitNL, if_neg hc] at h
      rcases hsp : splitNL rest with _ | ⟨x, xs⟩
      · rw [hsp] at h
        simp only [List.mem_singleton] at h
        subst h
        simp only [List.mem_singleton]
        exact fun hh => hc hh.symm
      · rw [hsp] at h
        rcases List.mem_cons.mp h with rfl | h'
        · intro hmem
          rcases List.mem_cons.mp hmem with hh | hh
          · exact hc hh.symm
          · exact ih (hsp ▸ List.mem_cons_self x xs) hh
        · exact ih (hsp ▸ List.mem_cons_of_mem x h')

/-- Splitting after appending a newline-free piece and a newline peels off
exactly that piece. -/
theorem splitNL_append_nl {a : GoStr} (ha : '\n' ∉ a) (X : GoStr) :
    splitNL (a ++ '\n' :: X) = a :: splitNL X := by
  induction a with
  | nil => simp [splitNL]
  | cons c t ih =>
    have hc : c ≠ '\n' := fun h => ha (h ▸ List.mem_cons_self _ _)
    have ht : '\n' ∉ t := fun h => ha (List.mem_cons_of_mem _ h)
    rw [List.cons_append]
    simp only [splitNL, if_neg hc, ih ht]

/-- Splitting a newline-free string yields the string as single piece. -/
theorem splitNL_no_nl {a : GoStr} (ha : '\n' ∉ a) : splitNL a = [a] := by
  induction a with
  | nil => rfl
  | cons c t ih =>
    have hc : c ≠ '\n' := fun h => ha (h ▸ List.mem_cons_self _ _)
    have ht : '\n' ∉ t := fun h => ha (List.mem_cons_of_mem _ h)
    simp only [splitNL, if_neg hc, ih ht]

/-- `splitNL` inverts `joinNL` on non-empty lists of newline-free
pieces. -/
theorem splitNL_joinNL {ls : List GoStr} (hne : ls ≠ [])
    (hnl : ∀ l ∈ ls, '\n' ∉ l) : splitNL (joinNL ls) = ls := by
  induction ls with
  | nil => exact absurd rfl hne
  | cons a rest ih =>
    rcases rest with _ | ⟨b, rest'⟩
    · exact splitNL_no_nl (hnl a (List.mem_cons_self _ _))
    · rw [show joinNL (a :: b :: rest') = a ++ '\n' :: joinNL (b :: rest')
        from rfl]
      rw [splitNL_append_nl (hnl a (List.mem_cons_self _ _))]
      rw [ih (List.cons_ne_nil _ _)
        (fun l hl => hnl l (List.mem_cons_of_mem _ hl))]

/-- Every line kept by `collectLines` is trimmed, non-empty, not a
warning line, and drawn from one of the input lines. -/
theorem collectLines_spec {xs : List GoStr} {l : GoStr}
    (h : l ∈ collectLines xs) :
    goTrimSpace l = l ∧ l ≠ [] ∧ goHasPre sshWarningPre l = false ∧
      ∃ x ∈ xs, ∀ y ∈ l, y ∈ x := by
  induction xs with
  | nil => simp [collectLines] at h
  | cons x rest ih =>
    simp only [collectLines] at h
    by_cases h1 : goTrimSpace x = []
    · rw [if_pos h1] at h
      obtain ⟨ha, hb, hc, x', hx', hsub⟩ := ih h
      exact ⟨ha, hb, hc, x', List.mem_cons_of_mem _ hx', hsub⟩
    · rw [if_neg h1] at h
      by_cases h2 : goHasPre sshWarningPre (goTrimSpace x) = true
      · rw [if_pos h2] at h
        obtain ⟨ha, hb, hc, x', hx', hsub⟩ := ih h
        exact ⟨ha, hb, hc, x', List.mem_cons_of_mem _ hx', hsub⟩
      · rw [if_neg h2] at h
        rcases List.mem_cons.mp h with rfl | h'
        · refine ⟨goTrimSpace_idem x, h1, ?_, x, List.mem_cons_self _ _,
            fun y hy => mem_of_mem_goTrimSpace hy⟩
          simpa using h2
        · obtain ⟨ha, hb, hc, x', hx', hsub⟩ := ih h'
          exact ⟨ha, hb, hc, x', List.mem_cons_of_mem _ hx', hsub⟩

/-- `collectLines` fixes lists of trimmed, non-empty, non-warning
lines. -/
theorem collectLines_id {ls : List GoStr}
    (hp : ∀ l ∈ ls, goTrimSpace l = l ∧ l ≠ [] ∧
      goHasPre sshWarningPre l = false) :
    collectLines ls = ls := by
  induction ls with
  | nil => rfl
  | cons a rest ih =>
    obtain ⟨ha, hb, hc⟩ := hp a (List.mem_cons_self _ _)
    simp only [collectLines, ha]
    rw [if_neg hb, if_neg (by simp [hc])]
    rw [ih (fun l hl => hp l (List.mem_cons_of_mem _ hl))]

/-- C9: `filterSSHNoise` is idempotent. -/
theorem filterSSHNoise_idem (s : GoStr) :
    filterSSHNoise (filterSSHNoise s) = filterSSHNoise s := by
  unfold filterSSHNoise
  have hls : ∀ l ∈ collectLines (splitNL s), goTrimSpace l = l ∧
      l ≠ [] ∧ goHasPre sshWarningPre l = false ∧ '\n' ∉ l := by
    intro l hl
    obtain ⟨h1, h2, h3, x, hx, hsub⟩ := collectLines_spec hl
    exact ⟨h1, h2, h3, fun hy => mem_splitNL_no_nl hx (hsub _ hy)⟩
  rcases h : collectLines (splitNL s) with _ | ⟨a, rest⟩
  · rfl
  · rw [h] at hls
    rw [splitNL_joinNL (List.cons_ne_nil a rest)
      (fun l hl => (hls l hl).2.2.2)]
    rw [collectLines_id
      (fun l hl => ⟨(hls l hl).1, (hls l hl).2.1, (hls l hl).2.2.1⟩)]

/-- C2: for POST/PUT requests whose (slash-trimmed) path contains `/`,
`ServeHTTP` dispatches to `handleUpload`, which answers 400 with a reason
naming the first missing or malformed of `num_chunks`, `content_length`,
`content_hash`, `split_offset` without calling `WriteTableFile`, and
otherwise calls `WriteTableFile` exactly once with the parsed
`num_chunks`, the decoded `content_hash`, `split_offset` (0 when absent)
and the body with the declared `content_length`, answering 500 with the
error text on failure and 200 on success. -/
theorem handleUpload_validation (fs : GoStr → Option (List Nat))
    (wtf : WriteCall → Option GoStr) (method urlPath path : GoStr)
    (q : Query) (reqBody : List Nat) (i : Nat)
    (hm : method = goStr "POST" ∨ method = goStr "PUT")
    (hi : goLastIndexChar '/' path = some i) :
    serveHTTP fs wtf method urlPath q reqBody =
      handleUpload wtf (urlPath.dropWhile (fun c => c == '/')) q reqBody ∧
    (goGet q (goStr "num_chunks") = [] →
      handleUpload wtf path q reqBody =
        ⟨400, .text (goStr "Bad Request: num_chunks required"), [], []⟩) ∧
    (goGet q (goStr "num_chunks") ≠ [] →
      goAtoi (goGet q (goStr "num_chunks")) = none →
      handleUpload wtf path q reqBody =
        ⟨400, .text (goStr "Bad Request: invalid num_chunks"), [], []⟩) ∧
    (∀ n, goAtoi (goGet q (goStr "num_chunks")) = some n →
      goGet q (goStr "content_length") = [] →
      handleUpload wtf path q reqBody =
        ⟨400, .text (goStr "Bad Request: content_length required"), [], []⟩) ∧
    (∀ n, goAtoi (goGet q (goStr "num_chunks")) = some n →
      goGet q (goStr "content_length") ≠ [] →
      goParseUint64 (goGet q (goStr "content_length")) = none →
      handleUpload wtf path q reqBody =
        ⟨400, .text (goStr "Bad Request: invalid content_length"), [], []⟩) ∧
    (∀ n len, goAtoi (goGet q (goStr "num_chunks")) = some n →
      goParseUint64 (goGet q (goStr "content_length")) = some len →
      goGet q (goStr "content_hash") = [] →
      handleUpload wtf path q reqBody =
        ⟨400, .text (goStr "Bad Request: content_hash required"), [], []⟩) ∧
    (∀ n len, goAtoi (goGet q (goStr "num_chunks")) = some n →
      goParseUint64 (goGet q (goStr "content_length")) = some len →
      goGet q (goStr "content_hash") ≠ [] →
      goB64RawURLDecode (goGet q (goStr "content_hash")) = none →
      handleUpload wtf path q reqBody =
        ⟨400, .text (goStr "Bad Request: invalid content_hash"), [], []⟩) ∧
    (∀ n len hsh, goAtoi (goGet q (goStr "num_chunks")) = some n →
      goParseUint64 (goGet q (goStr "content_length")) = some len →
      goGet q (goStr "content_hash") ≠ [] →
      goB64RawURLDecode (goGet q (goStr "content_hash")) = some hsh →
      goGet q (goStr "split_offset") ≠ [] →
      goParseUint64 (goGet q (goStr "split_offset")) = none →
      handleUpload wtf path q reqBody =
        ⟨400, .text (goStr "Bad Request: invalid split_offset"), [], []⟩) ∧
    (∀ n len hsh so, goAtoi (goGet q (goStr "num_chunks")) = some n →
      goParseUint64 (goGet q (goStr "content_length")) = some len →
      goGet q (goStr "content_hash") ≠ [] →
      goB64RawURLDecode (goGet q (goStr "content_hash")) = some hsh →
      (if goGet q (goStr "split_offset") = [] then some 0
        else goParseUint64 (goGet q (goStr "split_offset"))) = some so →
      handleUpload wtf path q reqBody =
        match wtf ⟨path.drop (i + 1), so, n, hsh, reqBody, len⟩ with
        | some errText =>
          ⟨500, .text errText, [],
            [⟨path.drop (i + 1), so, n, hsh, reqBody, len⟩]⟩
        | none =>
          ⟨200, .empty, [],
            [⟨path.drop (i + 1), so, n, hsh, reqBody, len⟩]⟩) := by
  have hnc : ∀ {n : Int}, goAtoi (goGet q (goStr "num_chunks")) = some n →
      goGet q (goStr "num_chunks") ≠ [] := by
    intro n hn hh
    rw [hh] at hn
    simp [goAtoi] at hn
  have hcl : ∀ {len : Nat},
      goParseUint64 (goGet q (goStr "content_length")) = some len →
      goGet q (goStr "content_length") ≠ [] := by
    intro len hl hh
    rw [hh] at hl
    simp [goParseUint64, goParseDigits] at hl
  refine ⟨?_, ?_, ?_, ?_, ?_, ?_, ?_, ?_, ?_⟩
  · rcases hm with rfl | rfl <;>
      simp [serveHTTP, show goStr "POST" ≠ goStr "GET" from by decide,
        show goStr "PUT" ≠ goStr "GET" from by decide]
  · intro h1
    simp [handleUpload, hi, h1]
  · intro h1 h2
    simp [handleUpload, hi, h1, h2]
  · intro n hn h1
    simp [handleUpload, hi, hnc hn, hn, h1]
  · intro n hn h1 h2
    simp [handleUpload, hi, hnc hn, hn, h1, h2]
  · intro n len hn hl h1
    simp [handleUpload, hi, hnc hn, hn, hcl hl, hl, h1]
  · intro n len hn hl h1 h2
    simp [handleUpload, hi, hnc hn, hn, hcl hl, hl, h1, h2]
  · intro n len hsh hn hl h1 hh h2 h3
    simp [handleUpload, hi, hnc hn, hn, hcl hl, hl, h1, hh, h2, h3]
  · intro n len hsh so hn hl h1 hh hso
    simp [handleUpload, hi, hnc hn, hn, hcl hl, hl, h1, hh, hso]

/-- Witness for C2: a well-formed upload with num_chunks=3,
content_length=10, content_hash="aGVsbG8" and a succeeding chunk store
yields 200 and exactly one WriteTableFile call with the parsed values. -/
theorem handleUpload_validation_witness :
    handleUpload (fun _ => none) (goStr "db/f")
        [(goStr "num_chunks", goStr "3"),
          (goStr "content_length", goStr "10"),
          (goStr "content_hash", goStr "aGVsbG8")] [1, 2, 3] =
      ⟨200, .empty, [],
        [⟨(goStr "db/f").drop (2 + 1), 0, 3, [104, 101, 108, 108, 111],
          [1, 2, 3], 10⟩]⟩ := by
  have h := handleUpload_validation (fun _ => none) (fun _ => none)
    (goStr "POST") (goStr "/db/f") (goStr "db/f")
    [(goStr "num_chunks", goStr "3"),
      (goStr "content_length", goStr "10"),
      (goStr "content_hash", goStr "aGVsbG8")] [1, 2, 3] 2
    (Or.inl rfl) (by decide)
  exact h.2.2.2.2.2.2.2.2 3 10 [104, 101, 108, 108, 111] 0 (by decide)
    (by decide) (by decide) (by decide) (by decide)
